import Mathlib

/-!
Verification of the voter-registration report handler
(`src/netlify/functions/voter_registration.ts`).

The development embeds the handler's pure computation in Lean:

* `parseDateStr`, `dateUTC`, `jsToNumber` — the `DD/MM/YYYY` date parser and a
  model of the ECMAScript `Date.UTC` day computation (proleptic Gregorian
  calendar, with the ECMAScript mapping of two-digit years 0–99 to 1900–1999).
  JavaScript `NaN` propagation is modelled by `Option Int` (`none` = NaN).
* `escapeRaw`, `renderLine`, `collectLines` — per-entrant classification and
  display-line rendering, and the player-counting loop.
* `mkHeader`, `packMsgs` — the greedy 2000-character message packer.
* `publishPlan` — the webhook publish loop (which message id receives which
  content).
* `EnvConfig`, `checkAuth`, `checkEnv`, `preFetch` — the secret check and the
  environment-variable checks that run before the roster fetch.
* `parsePhase`, `parseRow` — the string-level parsing phase, with `none`
  marking an unhandled exception (a method call on an `undefined` field).
* `civilFromDays` / `tsToCivil` — modelled from the spec: converting a Unix
  timestamp back to a UTC calendar date (standard era-based civil-from-days
  algorithm); used to state the date round-trip property.
-/

namespace VoterRegistration

/-! ## Constants from the source -/

def backlogDays : Int := 31

def daySec : Int := 24 * 60 * 60

def tsvSkipRows : Nat := 2

/-! ## Calendar arithmetic

`daysFromCivil` models the day-number computation performed by the ECMAScript
`Date.UTC` builtin (`MakeDay`): days since the Unix epoch of a proleptic
Gregorian calendar date, for an arbitrary integer day (out-of-range days roll
over linearly, as in ECMAScript).  Note that `/` and `%` on `Int` are
Euclidean, which for the positive literal divisors used here coincides with
the floor semantics of the ECMAScript specification. -/

def daysFromCivil (y m d : Int) : Int :=
  let y2 : Int := if m ≤ 2 then y - 1 else y
  let era : Int := y2 / 400
  let yoe : Int := y2 % 400
  let mp : Int := (m + 9) % 12
  let doy : Int := (153 * mp + 2) / 5 + d - 1
  let doe : Int := yoe * 365 + yoe / 4 - yoe / 100 + doy
  era * 146097 + doe - 719468

/-- Model of the ECMAScript `Date.UTC(year, monthIndex, day)` builtin
(restricted to integral arguments, the only ones the handler produces):
years 0–99 are mapped to 1900–1999, the month index is normalised by floor
division, and the result is in milliseconds. -/
def dateUTC (year monthIndex day : Int) : Int :=
  let y : Int := if 0 ≤ year ∧ year ≤ 99 then 1900 + year else year
  let ym : Int := y + monthIndex / 12
  let mn : Int := monthIndex % 12 + 1
  daysFromCivil ym mn day * 86400000

/-- Model of JavaScript `String.prototype.trim`: strip whitespace from both
ends (structurally recursive, hence kernel-computable). -/
def jsTrim (s : String) : String :=
  String.mk (((s.toList.dropWhile Char.isWhitespace).reverse.dropWhile
    Char.isWhitespace).reverse)

/-- Splitting a character list at every occurrence of a separator character;
always returns at least one (possibly empty) group, like JavaScript
`String.prototype.split` with a one-character separator. -/
def splitCharList (sep : Char) : List Char → List (List Char)
  | [] => [[]]
  | c :: cs =>
    match splitCharList sep cs with
    | [] => [[c]]
    | g :: gs => if c = sep then [] :: g :: gs else (c :: g) :: gs

/-- Model of JavaScript `str.split(sep)` for the one-character separators the
handler uses (`"\n"`, `"\t"`, `"/"`). -/
def splitChar (sep : Char) (s : String) : List String :=
  (splitCharList sep s.toList).map String.mk

/-- Value of a decimal digit character. -/
def digitVal (c : Char) : Nat := c.toNat - 48

/-- A non-empty all-digit character list read as a decimal number. -/
def decDigits? (l : List Char) : Option Nat :=
  if l ≠ [] ∧ l.all Char.isDigit then
    some (l.foldl (fun n c => n * 10 + digitVal c) 0)
  else none

/-- Model of ECMAScript `ToNumber` on strings (unary `+str`), restricted to
the decimal-integer sublanguage that covers every field of the `DD/MM/YYYY`
format: surrounding whitespace is trimmed, the empty string is `0`, an
optionally signed digit string is its value, anything else is `NaN`
(modelled as `none`). -/
def jsToNumber (s : String) : Option Int :=
  match (jsTrim s).toList with
  | [] => some 0
  | '-' :: rest => (decDigits? rest).map (fun n => -(n : Int))
  | '+' :: rest => (decDigits? rest).map (fun n => (n : Int))
  | l => (decDigits? l).map (fun n => (n : Int))

/-- `parseDateStr` from the source: expects `DD/MM/YYYY`, builds
`Date.UTC(+yyyy, +mm - 1, +dd)` and floors the millisecond value down to
seconds.  A missing component is `undefined` (`+undefined = NaN`), a
non-numeric component is `NaN`; `NaN` is modelled as `none`. -/
def parseDateStr (str : String) : Option Int :=
  let parts := splitChar '/' (jsTrim str)
  match parts.get? 0, parts.get? 1, parts.get? 2 with
  | some dd, some mm, some yyyy =>
    match jsToNumber dd, jsToNumber mm, jsToNumber yyyy with
    | some d, some m, some y => some (dateUTC y (m - 1) d / 1000)
    | _, _, _ => none
  | _, _, _ => none

/-! Modelled from the spec: "converting the timestamp back to a UTC calendar
date".  The handler never converts timestamps back to `(day, month, year)`
triples; the back-conversion is the standard era-based civil-from-days
algorithm for the proleptic Gregorian calendar, split into its intermediate
quantities so the round-trip proof can proceed step by step. -/

def cfdDoe (z : Int) : Int := (z + 719468) % 146097

def cfdEra (z : Int) : Int := (z + 719468) / 146097

def cfdYoe (z : Int) : Int :=
  (cfdDoe z - cfdDoe z / 1460 + cfdDoe z / 36524 - cfdDoe z / 146096) / 365

def cfdDoy (z : Int) : Int :=
  cfdDoe z - (365 * cfdYoe z + cfdYoe z / 4 - cfdYoe z / 100)

def cfdMp (z : Int) : Int := (5 * cfdDoy z + 2) / 153

def cfdM (z : Int) : Int := if cfdMp z < 10 then cfdMp z + 3 else cfdMp z - 9

def cfdD (z : Int) : Int := cfdDoy z - (153 * cfdMp z + 2) / 5 + 1

def cfdY (z : Int) : Int :=
  (if cfdM z ≤ 2 then 1 else 0) + cfdYoe z + cfdEra z * 400

/-- Modelled from the spec: the `(year, month, day)` UTC calendar date of a
day number counted from the Unix epoch. -/
def civilFromDays (z : Int) : Int × Int × Int := (cfdY z, cfdM z, cfdD z)

/-- Modelled from the spec: the UTC calendar date containing a Unix timestamp
in seconds. -/
def tsToCivil (t : Int) : Int × Int × Int := civilFromDays (t / 86400)

/-- Number of days of month `m` of (proleptic Gregorian) year `y`; delimits
which `DD/MM/YYYY` strings denote valid calendar dates. -/
def daysInMonth (y m : Int) : Int :=
  if m = 2 then (if y % 4 = 0 ∧ (y % 100 ≠ 0 ∨ y % 400 = 0) then 29 else 28)
  else if m = 4 ∨ m = 6 ∨ m = 9 ∨ m = 11 then 30 else 31

/-! ## Classification and rendering -/

/-- A parsed entrant row with well-defined timestamps (seconds). -/
structure Entrant where
  mcName : String
  tag : String
  validSec : Int
  expireSec : Int

/-- One escaped character: Discord formatting characters are prefixed with a
backslash (the regex class of `escapeRaw` in the source). -/
def escapeChar (c : Char) : List Char :=
  if c = '_' ∨ c = '~' ∨ c = '*' ∨ c = Char.ofNat 96 ∨ c = '\\' then
    ['\\', c]
  else [c]

/-- `escapeRaw` from the source: escape Discord formatting characters. -/
def escapeRaw (s : String) : String :=
  String.mk (s.toList.foldr (fun c acc => escapeChar c ++ acc) [])

/-- The display line the handler builds for one entrant (the `if/else if/else`
chain over `validSec`/`expireSec` against the sheet's as-of timestamp). -/
def renderLine (asOf : Int) (r : Entrant) : String :=
  let name := escapeRaw r.mcName
  if r.validSec > asOf then
    "*~~" ++ name ++ "~~ (begins <t:" ++ toString r.validSec ++
      ":D>) (valid through <t:" ++ toString r.expireSec ++ ":D>)*"
  else if r.expireSec > asOf then
    "**" ++ name ++ "** (valid through <t:" ++ toString r.expireSec ++ ":D>)"
  else
    "~~" ++ name ++ "~~ (ended <t:" ++ toString r.expireSec ++ ":D>)"

/-- The entrant loop of the handler, at the record level: every record
increments `numPlayers`; records whose expiry lies more than 31 days before
the as-of timestamp are skipped for display; all others contribute one
display line, in input order.  Returns `(numPlayers, displayLines)`. -/
def collectLines (asOf : Int) : List Entrant → Nat × List String
  | [] => (0, [])
  | r :: rs =>
    if r.expireSec < asOf - backlogDays * daySec then
      ((collectLines asOf rs).1 + 1, (collectLines asOf rs).2)
    else
      ((collectLines asOf rs).1 + 1, renderLine asOf r :: (collectLines asOf rs).2)

/-- Spec-side classification predicates (§4.4 of the spec). -/
def isUpcoming (asOf validSec : Int) : Prop := validSec > asOf

def isActive (asOf validSec expireSec : Int) : Prop :=
  validSec ≤ asOf ∧ expireSec > asOf

def isExpired (asOf validSec expireSec : Int) : Prop :=
  validSec ≤ asOf ∧ expireSec ≤ asOf

/-! ## Message packing and publishing -/

/-- The initial running block: report title with the as-of timestamp and the
static instructional text (the `fullMsg` initialiser in the source). -/
def mkHeader (sheetLastUpdatedSec : Int) : String :=
  "Up-To-Date Voter Registration (as of <t:" ++ toString sheetLastUpdatedSec ++
    ":D>)\n\nThese individuals are registered to vote in all elections, through the date listed. If your name is not currently listed, or ~~crossed out~~, you are not registered to vote.\n"

/-- The greedy packer loop of the handler: starting from the running block
`fullMsg`, append `"\n" ++ line` whenever `(fullMsg ++ line).length < 2000`,
otherwise emit the running block and restart from the trimmed line; the final
running block is always emitted. -/
def packMsgs (fullMsg : String) : List String → List String
  | [] => [fullMsg]
  | line :: rest =>
    if (fullMsg ++ line).length < 2000 then
      packMsgs (fullMsg ++ "\n" ++ line) rest
    else
      fullMsg :: packMsgs (jsTrim line) rest

/-- The publish loop of the handler, as the list of `(messageId, content)`
pairs it issues: one update per configured message id in order, each taking
the next unconsumed block (`fullMsgs.shift()`) or `"-"` when none remain. -/
def publishPlan : List String → List String → List (String × String)
  | [], _ => []
  | msgId :: ids, [] => (msgId, "-") :: publishPlan ids []
  | msgId :: ids, b :: bs => (msgId, b) :: publishPlan ids bs

/-- Second line of the success response body: the reported player count. -/
def playersLine (numPlayers : Nat) : String :=
  "Players: " ++ toString numPlayers

/-! ## Request authorisation and configuration checks -/

/-- The four environment variables the handler destructures from
`process.env`; `none` models an unset variable. -/
structure EnvConfig where
  tsvURL : Option String
  webhookURL : Option String
  msgIDs : Option String
  secret : Option String

/-- JavaScript truthiness of `string | undefined` (`undefined` and `""` are
falsy), as used by `!process.env[envName]`. -/
def truthy : Option String → Bool
  | none => false
  | some s => !(s == "")

/-- `process.env[envName]` for the four variable names the source uses. -/
def envLookup (cfg : EnvConfig) (name : String) : Option String :=
  if name = "VOTER_REGISTRATION_TSV_URL" then cfg.tsvURL
  else if name = "VOTER_REGISTRATION_WEBHOOK_URL" then cfg.webhookURL
  else if name = "VOTER_REGISTRATION_MSG_IDS" then cfg.msgIDs
  else if name = "VOTER_REGISTRATION_SECRET" then cfg.secret
  else none

/-- The secret check at the top of the handler.  `querySecret` is
`event.queryStringParameters?.secret` (absent parameter or absent parameter
map both collapse to `undefined` = `none`); JavaScript `!==` on
`string | undefined` is exact inequality, with `undefined !== undefined`
false. -/
def checkAuth (querySecret : Option String) (cfg : EnvConfig) :
    Option (Nat × String) :=
  if querySecret ≠ cfg.secret then some (400, "Invalid secret") else none

/-- The list of environment-variable names the handler's configuration loop
iterates over (the secret is not among them). -/
def checkedEnvNames : List String :=
  ["VOTER_REGISTRATION_TSV_URL", "VOTER_REGISTRATION_WEBHOOK_URL",
    "VOTER_REGISTRATION_MSG_IDS"]

/-- The configuration-check loop of the handler. -/
def checkEnvLoop (cfg : EnvConfig) : List String → Option (Nat × String)
  | [] => none
  | n :: ns =>
    if truthy (envLookup cfg n) then checkEnvLoop cfg ns
    else some (500, "Missing environment variable " ++ n)

def checkEnv (cfg : EnvConfig) : Option (Nat × String) :=
  checkEnvLoop cfg checkedEnvNames

/-- Everything the handler does before the roster fetch: the secret check,
then the configuration check; `none` means the handler proceeds to fetch. -/
def preFetch (querySecret : Option String) (cfg : EnvConfig) :
    Option (Nat × String) :=
  match checkAuth querySecret cfg with
  | some r => some r
  | none => checkEnv cfg

/-! ## The string-level parsing phase -/

/-- A parsed entrant row as the code sees it: trimmed name and tag, and the
two parsed timestamps, each possibly `NaN` (`none`). -/
structure RawEntrant where
  mcName : String
  tag : String
  validSec : Option Int
  expireSec : Option Int

/-- Parsing of one non-empty roster row.  The result is `none` exactly when a
method call on an `undefined` field would throw in JavaScript (fewer than 4
tab-separated fields: `tag.trim()` or `str.trim()` inside `parseDateStr` on
`undefined`). -/
def parseRow (row : String) : Option RawEntrant :=
  match (splitChar '\t' row).get? 0, (splitChar '\t' row).get? 1,
      (splitChar '\t' row).get? 2, (splitChar '\t' row).get? 3 with
  | some a, some b, some c, some d =>
    some ⟨jsTrim a, jsTrim b, parseDateStr c, parseDateStr d⟩
  | _, _, _, _ => none

/-- The row loop of the parsing phase: parse each row in order, propagating
an exception (`none`) from any row. -/
def parseRows : List String → Option (List RawEntrant)
  | [] => some []
  | r :: rs =>
    match parseRow r, parseRows rs with
    | some e, some es => some (e :: es)
    | _, _ => none

/-- The parsing phase of the handler: split the fetched text into rows, read
the as-of date from row 1 column 8, then parse every non-empty row after the
first `tsvSkipRows` rows.  `none` models an unhandled exception (a method
call on `undefined`); the `Option Int` inside the result is a possibly-`NaN`
as-of timestamp, which is a value, not an exception.  Returns
`(asOf, numPlayers, records)`. -/
def parsePhase (tsv : String) : Option (Option Int × Nat × List RawEntrant) :=
  match (splitChar '\n' tsv).get? 1 with
  | none => none
  | some row1 =>
    match (splitChar '\t' row1).get? 8 with
    | none => none
    | some cell =>
      match parseRows (((splitChar '\n' tsv).drop tsvSkipRows).filter
          (fun r => !(jsTrim r == ""))) with
      | none => none
      | some recs => some (parseDateStr cell, recs.length, recs)

/-- The precondition under which the parsing phase is total: at least two
rows, at least 9 columns in row 1, and at least 4 tab-separated fields in
every non-empty (after trimming) row from index 2 on. -/
def parsePrecond (tsv : String) : Prop :=
  2 ≤ (splitChar '\n' tsv).length ∧
  9 ≤ (splitChar '\t' (((splitChar '\n' tsv).get? 1).getD "")).length ∧
  ∀ r ∈ (splitChar '\n' tsv).drop tsvSkipRows,
    jsTrim r ≠ "" → 4 ≤ (splitChar '\t' r).length

/-! ## Helper lemmas -/

/-- Every block emitted by the packer loop either kept within the length
budget, or is the initial running block, or is the trimmed text of one of the
input lines (a restarted overflow block). -/
lemma packMsgs_mem (hdr : String) (lines : List String) (b : String)
    (hb : b ∈ packMsgs hdr lines) :
    b.length ≤ 2000 ∨ b = hdr ∨ ∃ l ∈ lines, b = jsTrim l := by
  induction lines generalizing hdr with
  | nil =>
    simp only [packMsgs, List.mem_singleton] at hb
    exact Or.inr (Or.inl hb)
  | cons line rest ih =>
    rw [packMsgs] at hb
    by_cases h : (hdr ++ line).length < 2000
    · rw [if_pos h] at hb
      rcases ih (hdr ++ "\n" ++ line) hb with h1 | h1 | h1
      · exact Or.inl h1
      · refine Or.inl ?_
        subst h1
        have hnl : ("\n" : String).length = 1 := rfl
        simp only [String.length_append] at h ⊢
        omega
      · obtain ⟨l, hl, hbl⟩ := h1
        exact Or.inr (Or.inr ⟨l, List.mem_cons_of_mem _ hl, hbl⟩)
    · rw [if_neg h] at hb
      rcases List.mem_cons.mp hb with h1 | h1
      · exact Or.inr (Or.inl h1)
      · rcases ih (jsTrim line) h1 with h2 | h2 | h2
        · exact Or.inl h2
        · exact Or.inr (Or.inr ⟨line, List.mem_cons_self _ _, h2⟩)
        · obtain ⟨l, hl, hbl⟩ := h2
          exact Or.inr (Or.inr ⟨l, List.mem_cons_of_mem _ hl, hbl⟩)

/-- Dropping a backlog-excluded record changes the player count by one and
leaves the display lines unchanged. -/
lemma collectLines_stale (asOf : Int) (r : Entrant) (pre post : List Entrant)
    (h : r.expireSec < asOf - backlogDays * daySec) :
    (collectLines asOf (pre ++ r :: post)).1 =
      (collectLines asOf (pre ++ post)).1 + 1 ∧
    (collectLines asOf (pre ++ r :: post)).2 =
      (collectLines asOf (pre ++ post)).2 := by
  induction pre with
  | nil =>
    simp [collectLines, if_pos h]
  | cons p pre ih =>
    rcases ih with ⟨ih1, ih2⟩
    by_cases hp : p.expireSec < asOf - backlogDays * daySec
    · simp [collectLines, hp, ih1, ih2]
    · simp [collectLines, hp, ih1, ih2]

/-! ## Claim C1 -/

/-- Claim C1 (amended): every MessageBlock emitted by the packer has length
at most 2000 characters — not strictly below 2000, because the overflow
check `(fullMsg + line).length < 2000` does not count the `"\n"` separator
that is actually appended — except possibly a block that is the trimmed text
of a single overflowing DisplayLine. -/
theorem c1_block_length_bound (hdr : String) (lines : List String)
    (hhdr : hdr.length ≤ 2000) :
    ∀ b ∈ packMsgs hdr lines, b.length ≤ 2000 ∨ ∃ l ∈ lines, b = jsTrim l := by
  intro b hb
  rcases packMsgs_mem hdr lines b hb with h | h | h
  · exact Or.inl h
  · exact Or.inl (h ▸ hhdr)
  · exact Or.inr h

theorem c1_block_length_bound_witness :
    ("hi" ++ "\n" ++ "x").length ≤ 2000 ∨
      ∃ l ∈ ["x"], ("hi" ++ "\n" ++ "x") = jsTrim l :=
  c1_block_length_bound "hi" ["x"] (by decide) ("hi" ++ "\n" ++ "x")
    (by decide)

/-- Name whose active display line has exactly 1769 characters, so that
appending it to the 230-character header passes the `< 2000` check and
produces a block of exactly 2000 characters. -/
def c1Name : String := String.mk (List.replicate 1732 'a')

def c1Rec : Entrant := ⟨c1Name, "T", 1714521600, 1719792000⟩

def c1Block : String :=
  mkHeader 1717200000 ++ "\n" ++ renderLine 1717200000 c1Rec

lemma c1_escapeRaw_name : escapeRaw c1Name = c1Name := by
  have he : escapeChar 'a' = ['a'] := by decide
  have key : ∀ n : Nat,
      (List.replicate n 'a').foldr (fun c acc => escapeChar c ++ acc) [] =
        List.replicate n 'a' := by
    intro n
    induction n with
    | zero => rfl
    | succ k ih => simp [List.replicate_succ, he, ih]
  have h2 : c1Name.toList = List.replicate 1732 'a' := rfl
  unfold escapeRaw
  rw [h2, key 1732]
  rfl

lemma c1_name_length : c1Name.length = 1732 := by
  show (String.mk (List.replicate 1732 'a')).length = 1732
  rw [String.length_mk, List.length_replicate]

lemma c1_header_length : (mkHeader 1717200000).length = 230 := by
  have e1 : ("Up-To-Date Voter Registration (as of <t:" : String).length = 40 :=
    rfl
  have e2 : (toString (1717200000 : Int)).length = 10 := rfl
  have e3 : (":D>)\n\nThese individuals are registered to vote in all elections, through the date listed. If your name is not currently listed, or ~~crossed out~~, you are not registered to vote.\n" : String).length = 180 :=
    rfl
  simp [mkHeader, String.length_append, e1, e2, e3]

lemma c1_render_line : renderLine 1717200000 c1Rec =
    "**" ++ c1Name ++ "** (valid through <t:" ++ toString (1719792000 : Int) ++
      ":D>)" := by
  have h1 : ¬ ((1714521600 : Int) > 1717200000) := by norm_num
  have h2 : (1719792000 : Int) > 1717200000 := by norm_num
  simp only [renderLine, c1Rec, if_neg h1, if_pos h2, c1_escapeRaw_name]

lemma c1_line_length : (renderLine 1717200000 c1Rec).length = 1769 := by
  have e1 : ("**" : String).length = 2 := rfl
  have e2 : ("** (valid through <t:" : String).length = 21 := rfl
  have e3 : (toString (1719792000 : Int)).length = 10 := rfl
  have e4 : (":D>)" : String).length = 4 := rfl
  rw [c1_render_line]
  simp [String.length_append, e1, e2, e3, e4, c1_name_length]

/-- Claim C1 counterexample: a full pipeline run (one active entrant, as-of
2024-06-01) emits exactly one MessageBlock, of length exactly 2000 — not
strictly below 2000 — while the only DisplayLine of the run has length 1769,
so the oversized block is the header plus a display line, not a block whose
entire content is a single overflowing DisplayLine (trimming a 1769-character
line cannot produce 2000 characters). -/
theorem c1_counterexample :
    (collectLines 1717200000 [c1Rec]).2 = [renderLine 1717200000 c1Rec] ∧
    packMsgs (mkHeader 1717200000) [renderLine 1717200000 c1Rec] =
      [c1Block] ∧
    c1Block.length = 2000 ∧
    (renderLine 1717200000 c1Rec).length = 1769 := by
  refine ⟨?_, ?_, ?_, c1_line_length⟩
  · have hns : ¬ ((c1Rec.expireSec : Int) <
        1717200000 - backlogDays * daySec) := by
      show ¬ ((1719792000 : Int) < 1717200000 - backlogDays * daySec)
      norm_num [backlogDays, daySec]
    simp [collectLines, hns]
  · have hcond : ((mkHeader 1717200000) ++
        renderLine 1717200000 c1Rec).length < 2000 := by
      simp [String.length_append, c1_header_length, c1_line_length]
    rw [packMsgs, if_pos hcond, packMsgs, c1Block]
  · show (mkHeader 1717200000 ++ "\n" ++ renderLine 1717200000 c1Rec).length
      = 2000
    have hnl : ("\n" : String).length = 1 := rfl
    simp [String.length_append, c1_header_length, c1_line_length, hnl]

/-! ## Claim C2 -/

/-- Claim C2: for every entrant record not excluded by the backlog filter,
exactly one of Upcoming (`validFrom > asOf`, italic struck-through name with
begins/valid-through annotations), Active (`validFrom ≤ asOf ∧
validUntil > asOf`, bold name with a valid-through annotation) and Expired
(otherwise, struck-through name with an ended annotation) applies, in that
priority order; the three states are mutually exclusive and cover all
non-excluded records. -/
theorem c2_classification (asOf : Int) (r : Entrant)
    (hnx : ¬ (r.expireSec < asOf - backlogDays * daySec)) :
    (isUpcoming asOf r.validSec ∧ ¬ isActive asOf r.validSec r.expireSec ∧
      ¬ isExpired asOf r.validSec r.expireSec ∧
      renderLine asOf r = "*~~" ++ escapeRaw r.mcName ++ "~~ (begins <t:" ++
        toString r.validSec ++ ":D>) (valid through <t:" ++
        toString r.expireSec ++ ":D>)*") ∨
    (¬ isUpcoming asOf r.validSec ∧ isActive asOf r.validSec r.expireSec ∧
      ¬ isExpired asOf r.validSec r.expireSec ∧
      renderLine asOf r = "**" ++ escapeRaw r.mcName ++
        "** (valid through <t:" ++ toString r.expireSec ++ ":D>)") ∨
    (¬ isUpcoming asOf r.validSec ∧ ¬ isActive asOf r.validSec r.expireSec ∧
      isExpired asOf r.validSec r.expireSec ∧
      renderLine asOf r = "~~" ++ escapeRaw r.mcName ++ "~~ (ended <t:" ++
        toString r.expireSec ++ ":D>)") := by
  unfold isUpcoming isActive isExpired
  by_cases h1 : r.validSec > asOf
  · refine Or.inl ⟨h1, by omega, by omega, ?_⟩
    simp only [renderLine, if_pos h1]
  · by_cases h2 : r.expireSec > asOf
    · refine Or.inr (Or.inl ⟨h1, ⟨by omega, h2⟩, by omega, ?_⟩)
      simp only [renderLine, if_neg h1, if_pos h2]
    · refine Or.inr (Or.inr ⟨h1, by omega, ⟨by omega, by omega⟩, ?_⟩)
      simp only [renderLine, if_neg h1, if_neg h2]

theorem c2_classification_witness :
    (isUpcoming 1717200000 1714521600 ∧
      ¬ isActive 1717200000 1714521600 1719792000 ∧
      ¬ isExpired 1717200000 1714521600 1719792000 ∧
      renderLine 1717200000 ⟨"Alice", "A", 1714521600, 1719792000⟩ =
        "*~~" ++ escapeRaw "Alice" ++ "~~ (begins <t:" ++
          toString (1714521600 : Int) ++ ":D>) (valid through <t:" ++
          toString (1719792000 : Int) ++ ":D>)*") ∨
    (¬ isUpcoming 1717200000 1714521600 ∧
      isActive 1717200000 1714521600 1719792000 ∧
      ¬ isExpired 1717200000 1714521600 1719792000 ∧
      renderLine 1717200000 ⟨"Alice", "A", 1714521600, 1719792000⟩ =
        "**" ++ escapeRaw "Alice" ++ "** (valid through <t:" ++
          toString (1719792000 : Int) ++ ":D>)") ∨
    (¬ isUpcoming 1717200000 1714521600 ∧
      ¬ isActive 1717200000 1714521600 1719792000 ∧
      isExpired 1717200000 1714521600 1719792000 ∧
      renderLine 1717200000 ⟨"Alice", "A", 1714521600, 1719792000⟩ =
        "~~" ++ escapeRaw "Alice" ++ "~~ (ended <t:" ++
          toString (1719792000 : Int) ++ ":D>)") :=
  c2_classification 1717200000 ⟨"Alice", "A", 1714521600, 1719792000⟩
    (by norm_num [backlogDays, daySec])

/-! ## Claim C3 -/

/-- Claim C3: a record whose `validUntil` lies more than 31 days (in seconds)
before the as-of timestamp contributes no DisplayLine — the display lines,
and hence every MessageBlock, are exactly those of the same roster without
the record — yet it still increments the total entrant count reported in the
success response body. -/
theorem c3_stale_excluded (asOf : Int) (r : Entrant) (pre post : List Entrant)
    (hdr : String) (h : r.expireSec < asOf - backlogDays * daySec) :
    (collectLines asOf (pre ++ r :: post)).1 =
      (collectLines asOf (pre ++ post)).1 + 1 ∧
    (collectLines asOf (pre ++ r :: post)).2 =
      (collectLines asOf (pre ++ post)).2 ∧
    packMsgs hdr (collectLines asOf (pre ++ r :: post)).2 =
      packMsgs hdr (collectLines asOf (pre ++ post)).2 ∧
    playersLine (collectLines asOf (pre ++ r :: post)).1 =
      playersLine ((collectLines asOf (pre ++ post)).1 + 1) := by
  obtain ⟨h1, h2⟩ := collectLines_stale asOf r pre post h
  exact ⟨h1, h2, by rw [h2], by rw [h1]⟩

theorem c3_stale_excluded_witness :
    (collectLines 1717200000
      ([] ++ (⟨"Carl", "C", 1704067200, 1706745600⟩ : Entrant) ::
        [⟨"Alice", "A", 1714521600, 1719792000⟩])).1 =
      (collectLines 1717200000
        ([] ++ [⟨"Alice", "A", 1714521600, 1719792000⟩])).1 + 1 ∧
    (collectLines 1717200000
      ([] ++ (⟨"Carl", "C", 1704067200, 1706745600⟩ : Entrant) ::
        [⟨"Alice", "A", 1714521600, 1719792000⟩])).2 =
      (collectLines 1717200000
        ([] ++ [⟨"Alice", "A", 1714521600, 1719792000⟩])).2 ∧
    packMsgs (mkHeader 1717200000)
      (collectLines 1717200000
        ([] ++ (⟨"Carl", "C", 1704067200, 1706745600⟩ : Entrant) ::
          [⟨"Alice", "A", 1714521600, 1719792000⟩])).2 =
      packMsgs (mkHeader 1717200000)
        (collectLines 1717200000
          ([] ++ [⟨"Alice", "A", 1714521600, 1719792000⟩])).2 ∧
    playersLine (collectLines 1717200000
      ([] ++ (⟨"Carl", "C", 1704067200, 1706745600⟩ : Entrant) ::
        [⟨"Alice", "A", 1714521600, 1719792000⟩])).1 =
      playersLine ((collectLines 1717200000
        ([] ++ [⟨"Alice", "A", 1714521600, 1719792000⟩])).1 + 1) :=
  c3_stale_excluded 1717200000 ⟨"Carl", "C", 1704067200, 1706745600⟩ []
    [⟨"Alice", "A", 1714521600, 1719792000⟩] (mkHeader 1717200000)
    (by norm_num [backlogDays, daySec])

/-! ## Calendar round-trip lemmas -/

set_option maxHeartbeats 10000000 in
/-- Recovery of the year-of-era from a day-of-era: the arithmetic heart of
the civil-from-days algorithm.  The day-of-year may be 365 only when the
shifted year `yoe + 1` is a leap year of the era. -/
lemma yoe_recover (yoe doy : Int) (h1 : 0 ≤ yoe) (h2 : yoe ≤ 399)
    (h3 : 0 ≤ doy)
    (h4 : doy ≤ 364 ∨ (doy = 365 ∧ (yoe + 1) % 4 = 0 ∧
      ((yoe + 1) % 100 ≠ 0 ∨ (yoe + 1) % 400 = 0))) :
    ((yoe * 365 + yoe / 4 - yoe / 100 + doy) -
      (yoe * 365 + yoe / 4 - yoe / 100 + doy) / 1460 +
      (yoe * 365 + yoe / 4 - yoe / 100 + doy) / 36524 -
      (yoe * 365 + yoe / 4 - yoe / 100 + doy) / 146096) / 365 = yoe := by
  interval_cases yoe <;> omega

set_option maxHeartbeats 1000000 in
/-- Decoding a day number of the form produced by `daysFromCivil` recovers
the era, year-of-era, month and day. -/
lemma civilFromDays_spec (z e w mp m y d : Int)
    (hz : z = e * 146097 +
      (w * 365 + w / 4 - w / 100 + ((153 * mp + 2) / 5 + d - 1)) - 719468)
    (hw1 : 0 ≤ w) (hw2 : w ≤ 399)
    (hmp1 : 0 ≤ mp) (hmp2 : mp ≤ 11)
    (hd1 : 1 ≤ d) (hd2 : d ≤ 31)
    (hwithin : (153 * mp + 2) / 5 + d - 1 < (153 * (mp + 1) + 2) / 5)
    (hdoy : (153 * mp + 2) / 5 + d - 1 ≤ 364 ∨
      ((153 * mp + 2) / 5 + d - 1 = 365 ∧ (w + 1) % 4 = 0 ∧
        ((w + 1) % 100 ≠ 0 ∨ (w + 1) % 400 = 0)))
    (hym : (mp ≤ 9 ∧ m = mp + 3 ∧ y = e * 400 + w) ∨
      (10 ≤ mp ∧ m = mp - 9 ∧ y = e * 400 + w + 1)) :
    civilFromDays z = (y, m, d) := by
  have hrec := yoe_recover w ((153 * mp + 2) / 5 + d - 1) hw1 hw2
    (by omega) hdoy
  have h1 : cfdDoe z =
      w * 365 + w / 4 - w / 100 + ((153 * mp + 2) / 5 + d - 1) := by
    unfold cfdDoe; omega
  have h2 : cfdEra z = e := by
    unfold cfdEra; omega
  have h3 : cfdYoe z = w := by
    unfold cfdYoe; rw [h1]; exact hrec
  have h4 : cfdDoy z = (153 * mp + 2) / 5 + d - 1 := by
    unfold cfdDoy; rw [h1, h3]; omega
  have h5 : cfdMp z = mp := by
    unfold cfdMp; rw [h4]; omega
  have h6 : cfdM z = m := by
    unfold cfdM; rw [h5]; split_ifs <;> omega
  have h7 : cfdD z = d := by
    unfold cfdD; rw [h4, h5]; omega
  have h8 : cfdY z = y := by
    unfold cfdY; rw [h6, h3, h2]; split_ifs <;> omega
  unfold civilFromDays
  rw [h8, h6, h7]

set_option maxHeartbeats 1000000 in
/-- Round-trip of the civil-date encoding: for every valid proleptic
Gregorian date, decoding the day number computed by `daysFromCivil` recovers
the original `(year, month, day)` triple. -/
lemma civil_roundtrip (y m d : Int) (hm1 : 1 ≤ m) (hm2 : m ≤ 12)
    (hd1 : 1 ≤ d) (hd2 : d ≤ daysInMonth y m) :
    civilFromDays (daysFromCivil y m d) = (y, m, d) := by
  simp only [daysInMonth] at hd2
  refine civilFromDays_spec (daysFromCivil y m d)
    ((if m ≤ 2 then y - 1 else y) / 400) ((if m ≤ 2 then y - 1 else y) % 400)
    ((m + 9) % 12) m y d ?_ ?_ ?_ ?_ ?_ ?_ ?_ ?_ ?_ ?_
  · simp only [daysFromCivil]
  · omega
  · omega
  · omega
  · omega
  · exact hd1
  · split_ifs at hd2 <;> omega
  · interval_cases m <;> split_ifs at hd2 <;> omega
  · interval_cases m <;> split_ifs at hd2 <;> omega
  · interval_cases m <;> split_ifs <;> omega

/-! ## Claim C4 -/

/-- Claim C4 (amended): for every valid `DD/MM/YYYY` date string whose year
component is at least 100 (and at most 9999, per the four-digit format),
`parseDateStr` yields the Unix timestamp in seconds of that calendar date at
midnight UTC, and converting the timestamp back to a UTC calendar date
recovers the original day/month/year triple.  For year components 0–99 the
round-trip fails, because `Date.UTC` maps such years to 1900–1999. -/
theorem c4_date_roundtrip (s ds ms ys : String) (d m y : Int)
    (hsplit : splitChar '/' (jsTrim s) = [ds, ms, ys])
    (hds : jsToNumber ds = some d) (hms : jsToNumber ms = some m)
    (hys : jsToNumber ys = some y)
    (hm1 : 1 ≤ m) (hm2 : m ≤ 12) (hd1 : 1 ≤ d) (hd2 : d ≤ daysInMonth y m)
    (hy1 : 100 ≤ y) (hy2 : y ≤ 9999) :
    parseDateStr s = some (86400 * daysFromCivil y m d) ∧
    (86400 * daysFromCivil y m d) % 86400 = 0 ∧
    tsToCivil (86400 * daysFromCivil y m d) = (y, m, d) := by
  refine ⟨?_, by omega, ?_⟩
  · simp only [parseDateStr, hsplit, List.get?_cons_zero, List.get?_cons_succ,
      hds, hms, hys]
    have hy' : ¬ (0 ≤ y ∧ y ≤ 99) := by omega
    have hm' : y + (m - 1) / 12 = y := by omega
    have hmn : (m - 1) % 12 + 1 = m := by omega
    simp only [dateUTC, if_neg hy', hm', hmn]
    have : daysFromCivil y m d * 86400000 / 1000 =
        86400 * daysFromCivil y m d := by omega
    rw [this]
  · unfold tsToCivil
    have hq : (86400 * daysFromCivil y m d) / 86400 = daysFromCivil y m d :=
      by omega
    rw [hq]
    exact civil_roundtrip y m d hm1 hm2 hd1 hd2

theorem c4_date_roundtrip_witness :
    parseDateStr "29/02/2024" = some (86400 * daysFromCivil 2024 2 29) ∧
    (86400 * daysFromCivil 2024 2 29) % 86400 = 0 ∧
    tsToCivil (86400 * daysFromCivil 2024 2 29) = (2024, 2, 29) :=
  c4_date_roundtrip "29/02/2024" "29" "02" "2024" 29 2 2024 (by decide)
    (by decide) (by decide) (by decide) (by decide) (by decide) (by decide)
    (by decide) (by decide) (by decide)

/-- Claim C4 counterexample: `"01/01/0024"` is a well-formed `DD/MM/YYYY`
string for the calendar date 24-01-01, but `Date.UTC` maps year 24 to 1924:
parsing yields the timestamp of 1924-01-01 (midnight UTC), and converting it
back gives the calendar date `(1924, 1, 1)`, not `(24, 1, 1)` — the
round-trip over the day/month/year triple fails. -/
theorem c4_counterexample :
    parseDateStr "01/01/0024" = some (-1451692800) ∧
    tsToCivil (-1451692800) = (1924, 1, 1) ∧
    ((1924 : Int), (1 : Int), (1 : Int)) ≠ ((24 : Int), 1, 1) :=
  ⟨by decide, by decide, by decide⟩

/-! ## Claim C5 -/

lemma publishPlan_length (ids : List String) :
    ∀ blocks : List String, (publishPlan ids blocks).length = ids.length := by
  induction ids with
  | nil => intro blocks; rfl
  | cons msgId ids ih =>
    intro blocks
    cases blocks with
    | nil => simp [publishPlan, ih]
    | cons b bs => simp [publishPlan, ih]

lemma publishPlan_get? (ids : List String) :
    ∀ (blocks : List String) (i : Nat),
      (publishPlan ids blocks)[i]? =
        (ids[i]?).map (fun msgId => (msgId, (blocks[i]?).getD "-")) := by
  induction ids with
  | nil => intro blocks i; simp [publishPlan]
  | cons msgId ids ih =>
    intro blocks i
    cases blocks with
    | nil =>
      cases i with
      | zero => simp [publishPlan]
      | succ j => simp [publishPlan, ih]
    | cons b bs =>
      cases i with
      | zero => simp [publishPlan]
      | succ j => simp [publishPlan, ih]

/-- Claim C5: the publisher iterates the configured message ids in order and
issues exactly one update per message id (the plan has one entry per id, in
order); entry `i` carries the `i`-th MessageBlock, or the placeholder `"-"`
when fewer than `i + 1` blocks remain; blocks beyond the number of message
ids appear in no entry and cause no error. -/
theorem c5_publish_plan (ids blocks : List String) (i : Nat) :
    (publishPlan ids blocks).length = ids.length ∧
    (publishPlan ids blocks)[i]? =
      (ids[i]?).map (fun msgId => (msgId, (blocks[i]?).getD "-")) :=
  ⟨publishPlan_length ids blocks, publishPlan_get? ids blocks i⟩

/-! ## Claim C6 -/

/-- Claim C6 counterexample: when the configured secret is unset, a request
with an absent `secret` query parameter is *not* rejected — `undefined !==
undefined` is false — so "every incoming request whose secret query parameter
is absent terminates with status 400" fails at this input. -/
theorem c6_counterexample :
    checkAuth none ⟨none, none, none, none⟩ = none ∧
    checkAuth none ⟨none, none, none, none⟩ ≠ some (400, "Invalid secret") :=
  ⟨rfl, by decide⟩

/-- Claim C6 (amended): when a configured secret is set, a request with an
absent secret query parameter is rejected with status 400 and body
`Invalid secret`; in general the check passes exactly when the request's
secret parameter and the configured secret are equal (case-sensitive string
equality, no normalisation — with two absent values also comparing equal). -/
theorem c6_auth (q : Option String) (cfg : EnvConfig) (s : String)
    (hs : cfg.secret = some s) :
    checkAuth none cfg = some (400, "Invalid secret") ∧
    (checkAuth q cfg = none ↔ q = cfg.secret) := by
  constructor
  · simp [checkAuth, hs]
  · unfold checkAuth
    split_ifs with h
    · simp [h]
    · simp at h
      simp [h]

theorem c6_auth_witness :
    checkAuth none ⟨none, none, none, some "s0"⟩ =
      some (400, "Invalid secret") ∧
    (checkAuth (some "s0") ⟨none, none, none, some "s0"⟩ = none ↔
      some "s0" = (⟨none, none, none, some "s0"⟩ : EnvConfig).secret) :=
  c6_auth (some "s0") ⟨none, none, none, some "s0"⟩ "s0" rfl

/-! ## Claim C7 -/

/-- Claim C7 counterexample: with the roster URL, webhook URL and message-id
variables set but the secret unset, a request that passes authorisation (both
secrets absent) is not answered with a 500 configuration error: the handler
proceeds to the fetch, because the secret is not among the checked
variables. -/
theorem c7_counterexample :
    preFetch none ⟨some "u", some "w", some "1 2", none⟩ = none ∧
    truthy (⟨some "u", some "w", some "1 2", none⟩ : EnvConfig).secret =
      false :=
  ⟨by decide, rfl⟩

/-- Claim C7 (amended): the handler checks only the roster-URL, webhook-URL
and message-ids variables (not the secret): for every request that passes
the authorisation check, if any of those three is empty or unset, the
handler returns status 500 with a body naming a missing variable that is
indeed empty or unset, before any outbound fetch is attempted. -/
theorem c7_env_check (q : Option String) (cfg : EnvConfig)
    (hauth : q = cfg.secret)
    (hmiss : truthy cfg.tsvURL = false ∨ truthy cfg.webhookURL = false ∨
      truthy cfg.msgIDs = false) :
    ∃ v ∈ checkedEnvNames,
      preFetch q cfg = some (500, "Missing environment variable " ++ v) ∧
      truthy (envLookup cfg v) = false := by
  have hpf : preFetch q cfg = checkEnv cfg := by
    unfold preFetch checkAuth
    rw [if_neg (by simp [hauth])]
  have e1 : envLookup cfg "VOTER_REGISTRATION_TSV_URL" = cfg.tsvURL := rfl
  have e2 : envLookup cfg "VOTER_REGISTRATION_WEBHOOK_URL" = cfg.webhookURL :=
    rfl
  have e3 : envLookup cfg "VOTER_REGISTRATION_MSG_IDS" = cfg.msgIDs := rfl
  rw [hpf]
  by_cases h1 : truthy cfg.tsvURL = true
  · by_cases h2 : truthy cfg.webhookURL = true
    · by_cases h3 : truthy cfg.msgIDs = true
      · exfalso
        rcases hmiss with h | h | h <;> simp_all
      · refine ⟨"VOTER_REGISTRATION_MSG_IDS", by simp [checkedEnvNames], ?_,
          by rw [e3]; simpa using h3⟩
        simp [checkEnv, checkedEnvNames, checkEnvLoop, e1, e2, e3, h1, h2,
          h3]
    · refine ⟨"VOTER_REGISTRATION_WEBHOOK_URL", by simp [checkedEnvNames],
        ?_, by rw [e2]; simpa using h2⟩
      simp [checkEnv, checkedEnvNames, checkEnvLoop, e1, e2, h1, h2]
  · refine ⟨"VOTER_REGISTRATION_TSV_URL", by simp [checkedEnvNames], ?_,
      by rw [e1]; simpa using h1⟩
    simp [checkEnv, checkedEnvNames, checkEnvLoop, e1, h1]

theorem c7_env_check_witness :
    ∃ v ∈ checkedEnvNames,
      preFetch (some "s") ⟨none, some "w", some "1", some "s"⟩ =
        some (500, "Missing environment variable " ++ v) ∧
      truthy (envLookup ⟨none, some "w", some "1", some "s"⟩ v) = false :=
  c7_env_check (some "s") ⟨none, some "w", some "1", some "s"⟩ rfl
    (Or.inl rfl)

/-! ## Claim C8 -/

lemma packMsgs_length_pos (lines : List String) :
    ∀ hdr : String, 1 ≤ (packMsgs hdr lines).length := by
  induction lines with
  | nil => intro hdr; simp [packMsgs]
  | cons line rest ih =>
    intro hdr
    rw [packMsgs]
    split_ifs
    · exact ih _
    · simp

lemma publishPlan_no_blocks (ids : List String) :
    publishPlan ids [] = ids.map (fun j => (j, "-")) := by
  induction ids with
  | nil => rfl
  | cons msgId ids ih => simp [publishPlan, ih]

/-- Claim C8: with zero entrant records the packer emits exactly one
MessageBlock, the fixed header alone; the publisher sends it to the first
configured message id and every remaining id receives the placeholder `"-"`;
and in general the packer's output has length at least 1. -/
theorem c8_empty_roster (asOf : Int) (i : String) (ids : List String) :
    packMsgs (mkHeader asOf) (collectLines asOf []).2 = [mkHeader asOf] ∧
    (∀ lines : List String, 1 ≤ (packMsgs (mkHeader asOf) lines).length) ∧
    publishPlan (i :: ids)
        (packMsgs (mkHeader asOf) (collectLines asOf []).2) =
      (i, mkHeader asOf) :: ids.map (fun j => (j, "-")) := by
  refine ⟨rfl, fun lines => packMsgs_length_pos lines _, ?_⟩
  show publishPlan (i :: ids) [mkHeader asOf] = _
  rw [publishPlan, publishPlan_no_blocks]

/-! ## Claim C9 -/

/-- Claim C9: when the configured secret is unset and the request's secret
query parameter is absent, the authorisation check passes (the two undefined
values compare equal) and the invocation proceeds to the configuration
check, which does not detect the missing secret: it reads only the
roster-URL, webhook-URL and message-ids variables, so its outcome is the
same for any value of the secret field. -/
theorem c9_unset_secret (cfg : EnvConfig) (s : Option String)
    (h : cfg.secret = none) :
    checkAuth none cfg = none ∧
    preFetch none cfg = checkEnv cfg ∧
    checkEnv ⟨cfg.tsvURL, cfg.webhookURL, cfg.msgIDs, s⟩ = checkEnv cfg := by
  have h1 : checkAuth none cfg = none := by simp [checkAuth, h]
  refine ⟨h1, ?_, ?_⟩
  · unfold preFetch
    rw [h1]
  · simp [checkEnv, checkedEnvNames, checkEnvLoop, envLookup]

theorem c9_unset_secret_witness :
    checkAuth none ⟨some "u", none, some "1", none⟩ = none ∧
    preFetch none ⟨some "u", none, some "1", none⟩ =
      checkEnv ⟨some "u", none, some "1", none⟩ ∧
    checkEnv ⟨some "u", none, some "1", some "x"⟩ =
      checkEnv ⟨some "u", none, some "1", none⟩ :=
  c9_unset_secret ⟨some "u", none, some "1", none⟩ (some "x") rfl

/-! ## Claim C10 -/

lemma parseRow_isSome (row : String) :
    (parseRow row).isSome = true ↔ 4 ≤ (splitChar '\t' row).length := by
  rcases h3 : (splitChar '\t' row).get? 3 with _ | d
  · have hlen : (splitChar '\t' row).length ≤ 3 := List.get?_eq_none.mp h3
    rcases h0 : (splitChar '\t' row).get? 0 with _ | a <;>
    rcases h1 : (splitChar '\t' row).get? 1 with _ | b <;>
    rcases h2 : (splitChar '\t' row).get? 2 with _ | c <;>
      simp only [parseRow, h0, h1, h2, h3, Option.isSome_none,
        Bool.false_eq_true, false_iff] <;>
      omega
  · have hlen : 3 < (splitChar '\t' row).length := by
      by_contra hc
      rw [List.get?_eq_none.mpr (by omega)] at h3
      exact Option.noConfusion h3
    rcases h0 : (splitChar '\t' row).get? 0 with _ | a
    · rw [List.get?_eq_none] at h0; omega
    rcases h1 : (splitChar '\t' row).get? 1 with _ | b
    · rw [List.get?_eq_none] at h1; omega
    rcases h2 : (splitChar '\t' row).get? 2 with _ | c
    · rw [List.get?_eq_none] at h2; omega
    simp only [parseRow, h0, h1, h2, h3, Option.isSome_some, true_iff]
    omega

lemma parseRows_isSome (l : List String) :
    (parseRows l).isSome = true ↔ ∀ r ∈ l, (parseRow r).isSome = true := by
  induction l with
  | nil => simp [parseRows]
  | cons r rs ih =>
    cases he : parseRow r <;> cases hes : parseRows rs <;>
      simp_all [parseRows]

/-- Claim C10: the parsing phase is partial, and its domain is exactly the
stated precondition: the fetched text has at least 2 rows, row 1 has at
least 9 tab-separated columns, and every non-empty (after trimming) row from
index 2 on has at least 4 tab-separated fields.  Under the precondition every
field access is defined and the phase completes; on any input violating it a
method call on an `undefined` field throws (`none`), aborting the invocation
without a structured response. -/
theorem c10_parse_partial (tsv : String) :
    (parsePhase tsv).isSome = true ↔ parsePrecond tsv := by
  constructor
  · intro hs
    unfold parsePhase at hs
    rcases hr1 : (splitChar '\n' tsv).get? 1 with _ | row1
    · rw [hr1] at hs
      simp at hs
    simp only [hr1] at hs
    rcases h8 : (splitChar '\t' row1).get? 8 with _ | cell
    · rw [h8] at hs
      simp at hs
    simp only [h8] at hs
    rcases hrows : parseRows
        (((splitChar '\n' tsv).drop tsvSkipRows).filter
          (fun r => !(jsTrim r == ""))) with _ | recs
    · rw [hrows] at hs
      simp at hs
    have hlen : 1 < (splitChar '\n' tsv).length := by
      by_contra hc
      rw [List.get?_eq_none.mpr (by omega)] at hr1
      exact Option.noConfusion hr1
    have h8len : 8 < (splitChar '\t' row1).length := by
      by_contra hc
      rw [List.get?_eq_none.mpr (by omega)] at h8
      exact Option.noConfusion h8
    refine ⟨by omega, ?_, ?_⟩
    · rw [hr1]
      simp only [Option.getD_some]
      omega
    · intro r hr htrim
      have hall := (parseRows_isSome _).mp (by rw [hrows]; rfl)
      exact (parseRow_isSome r).mp
        (hall r (List.mem_filter.mpr ⟨hr, by simpa using htrim⟩))
  · rintro ⟨h2, h9, h4⟩
    unfold parsePhase
    rcases hr1 : (splitChar '\n' tsv).get? 1 with _ | row1
    · rw [List.get?_eq_none] at hr1
      omega
    rcases h8 : (splitChar '\t' row1).get? 8 with _ | cell
    · rw [List.get?_eq_none] at h8
      rw [hr1] at h9
      simp only [Option.getD_some] at h9
      omega
    rcases hrows : parseRows
        (((splitChar '\n' tsv).drop tsvSkipRows).filter
          (fun r => !(jsTrim r == ""))) with _ | recs
    · exfalso
      have hsome : (parseRows
          (((splitChar '\n' tsv).drop tsvSkipRows).filter
            (fun r => !(jsTrim r == "")))).isSome = true := by
        rw [parseRows_isSome]
        intro r hr
        rw [parseRow_isSome]
        rw [List.mem_filter] at hr
        exact h4 r hr.1 (by simpa using hr.2)
      rw [hrows] at hsome
      exact Bool.noConfusion hsome
    · first
      | rfl
      | (simp only [hr1, h8, hrows]; rfl)

end VoterRegistration
